import Mathlib

/-! guile-epoll: a shallow embedding of `ext.c`

`ext.c` binds the Linux epoll calls to Guile.  The embedding below follows the
C source function by function.

* Scheme objects are the inductive type `SCM`; the libguile conversions
  (`scm_to_int`, `scm_to_uint32`, ...) are fallible functions on it.
* The file-scope and function-scope `static` variables of `ext.c` are the
  fields of `World`, which is passed explicitly; `World.trace` lists the calls
  the program made to its environment (allocator, kernel, output port).
* What the environment answers is an `Env`; every theorem quantifies over it.
* A non-local exit (`scm_throw`, a failed libguile conversion) is an
  `Except.error`; the world at the moment of the exit is still returned,
  because the statics keep what was written before.
* The event array is a block of bytes whose size is what `realloc` was asked
  for; an access to `events[i]` that does not lie inside the block is an
  `Except.error` as well.
-/

namespace GuileEpoll

/-! ## Scheme objects and the libguile functions used by `ext.c` -/

/-- Scheme objects, as far as `ext.c` can tell them apart. -/
inductive SCM where
  | undefined
  | unspecified
  | bool_f
  | bool_t
  | eol
  | int (n : Int)
  | str (s : String)
  | sym (s : String)
  | cons (car cdr : SCM)
  deriving DecidableEq, Repr

/-- Ways a call does not return a value: a `scm_throw` issued by `ext.c`
itself (with the key and the argument object it passes), the two errors
libguile conversions raise, the `abort` of a failed `assert`, and an access
outside the block that the static `events` points to (undefined behaviour in
C: the run has no defined result). -/
inductive Raised where
  | scm_throw (key args : SCM)
  | wrong_type_arg (v : SCM)
  | out_of_range (v : SCM)
  | abort
  | buffer_overrun
  deriving DecidableEq, Repr

def INT_MIN : Int := -2147483648
def INT_MAX : Int := 2147483647
def UINT32_MAX : Int := 4294967295

/-- C `scm_to_int`: an exact integer that fits `int`, else an error. -/
def scm_to_int : SCM → Except Raised Int
  | SCM.int n =>
    if INT_MIN ≤ n ∧ n ≤ INT_MAX then Except.ok n
    else Except.error (Raised.out_of_range (SCM.int n))
  | v => Except.error (Raised.wrong_type_arg v)

/-- C `scm_to_uint32`: an exact integer that fits `uint32_t`, else an error. -/
def scm_to_uint32 : SCM → Except Raised Nat
  | SCM.int n =>
    if 0 ≤ n ∧ n ≤ UINT32_MAX then Except.ok n.toNat
    else Except.error (Raised.out_of_range (SCM.int n))
  | v => Except.error (Raised.wrong_type_arg v)

/-- C `scm_from_int`. -/
def scm_from_int (n : Int) : SCM := SCM.int n

/-- C `scm_from_uint32`, applied to a value that already has type `uint32_t`. -/
def scm_from_uint32 (n : Nat) : SCM := SCM.int n

/-- The implicit C conversion of an `int` to `uint32_t` (reduction modulo
`2^32`), which happens when `events[i].data.fd` is passed to
`scm_from_uint32`. -/
def int_to_uint32 (n : Int) : Nat := (n % 4294967296).toNat

/-- The implicit C conversion of an `int` to `size_t` on an LP64 target,
which happens when `maxevents` is passed to `realloc`. -/
def int_to_size_t (n : Int) : Nat := (n % 18446744073709551616).toNat

/-- C `scm_list_1`. -/
def scm_list_1 (x : SCM) : SCM := SCM.cons x SCM.eol

/-- Whether an object is a proper list. -/
def is_proper_list : SCM → Bool
  | SCM.eol => true
  | SCM.cons _ d => is_proper_list d
  | _ => false

/-- Tag of the immediate flag objects (libguile `tags.h`: `scm_tc8_flag`). -/
def scm_tc8_flag : Nat := 4

/-- Machine word of the `n`-th immediate flag object (libguile `tags.h`:
`SCM_MAKIFLAG_BITS (n)` is `((n) << 8) + scm_tc8_flag`). -/
def SCM_MAKIFLAG_BITS (n : Nat) : Nat := (n <<< 8) + scm_tc8_flag

/-- Machine word of `SCM_BOOL_F`, flag number 0. -/
def SCM_BOOL_F_BITS : Nat := SCM_MAKIFLAG_BITS 0

/-- Machine word of `SCM_BOOL_T`, flag number 4. -/
def SCM_BOOL_T_BITS : Nat := SCM_MAKIFLAG_BITS 4

/-- Machine word of the Scheme boolean for a truth value (`scm_from_bool`). -/
def scm_from_bool_bits (b : Bool) : Nat :=
  if b then SCM_BOOL_T_BITS else SCM_BOOL_F_BITS

/-- C `scm_null_p`, declared `SCM scm_null_p (SCM x)` in libguile `list.h`:
the Scheme procedure `null?`, whose body is `return scm_from_bool (...)`.  It
returns a Scheme boolean object, `SCM_BOOL_T` or `SCM_BOOL_F`, given here by
its machine word (`SCM` is a pointer-sized word, and neither object is the
zero word).  The C truth value is the separate `int scm_is_null (SCM x)`,
which `ext.c` does not use. -/
def scm_null_p (x : SCM) : Nat := scm_from_bool_bits (decide (x = SCM.eol))

/-- C `scm_list_p`, the Scheme procedure `list?`; returns a boolean object. -/
def scm_list_p (x : SCM) : Nat := scm_from_bool_bits (is_proper_list x)

/-- C `scm_number_p`, the Scheme procedure `number?`; returns a boolean
object. -/
def scm_number_p (x : SCM) : Nat :=
  scm_from_bool_bits (match x with
    | SCM.int _ => true
    | _ => false)

/-- The C operator `!` applied to an `SCM` (a pointer-sized word): true
exactly for the zero word. -/
def c_not (word : Nat) : Bool := word == 0

/-! ## Kernel ABI (`<sys/epoll.h>`, `<signal.h>`; Linux, x86-64) -/

def EPOLL_CTL_ADD : Int := 1
def EPOLL_CTL_DEL : Int := 2
def EPOLL_CTL_MOD : Int := 3

/-- The enumerator `EPOLLET = 1u << 31`. -/
def EPOLLET : Nat := 2147483648

/-- The enumerator `EPOLL_CLOEXEC = 02000000`. -/
def EPOLL_CLOEXEC : Int := 524288

/-- Bytes of one `struct epoll_event` (packed on x86-64: 4 + 8). -/
def sizeof_epoll_event : Nat := 12

/-- The fields of `struct epoll_event` that `ext.c` touches: `events` and the
`fd` member of the `data` union. -/
structure epoll_event where
  events : Nat
  data_fd : Int
  deriving DecidableEq, Repr

/-- Number of signals plus one (`_NSIG`); valid signal numbers are
`1 .. NSIG - 1`. -/
def NSIG : Int := 65

/-- A signal set: bit `k` is set when signal `k + 1` is a member. -/
structure sigset_t where
  bits : Nat
  deriving DecidableEq, Repr

/-- C `sigemptyset`. -/
def sigemptyset : sigset_t := ⟨0⟩

/-- C `sigaddset`; an invalid signal number leaves the set as it is (the call
returns -1, which `ext.c` does not look at). -/
def sigaddset (set : sigset_t) (signo : Int) : sigset_t :=
  if 0 < signo ∧ signo < NSIG then ⟨set.bits ||| (1 <<< (signo.toNat - 1))⟩
  else set

/-- C `sigismember`, as a truth value. -/
def sigismember (set : sigset_t) (signo : Int) : Bool :=
  decide (0 < signo ∧ signo < NSIG) && set.bits.testBit (signo.toNat - 1)

/-! ## Program state and environment -/

/-- Calls that `ext.c` makes to its environment, with the argument values. -/
inductive Call where
  | realloc (old : Option Nat) (size : Nat)
  | epoll_pwait (epfd maxevents timeout : Int) (sigmask : sigset_t)
  | epoll_ctl (epfd op fd : Int) (event : epoll_event)
  | epoll_create1 (flags : Int)
  | scm_write_line (s : String)
  deriving DecidableEq, Repr

/-- The static storage of `ext.c` and the calls made so far (oldest first).
`events` is the function-scope static pointer of `scm_epoll_wait`: `none` for
`NULL`, `some n` for a block of `n` bytes.  `event` is the function-scope
static of `scm_epoll_ctl`. -/
structure World where
  g_blocked_signals : sigset_t
  g_edge_triggering : Bool
  events : Option Nat
  event : epoll_event
  trace : List Call
  deriving DecidableEq, Repr

/-- The world at program start: the initialisers of `ext.c` (zero for the
statics without one, `true` for `g_edge_triggering`). -/
def World.init : World :=
  { g_blocked_signals := ⟨0⟩
    g_edge_triggering := true
    events := none
    event := ⟨0, 0⟩
    trace := [] }

/-- Return value and `errno` of a system call. -/
structure SysResult where
  res : Int
  errno : Int
  deriving DecidableEq, Repr

/-- What `epoll_pwait` answers: return value, `errno`, and the slots the
kernel writes, slot `i` at byte offset `i * sizeof (struct epoll_event)` from
the pointer it was given. -/
structure PwaitResult where
  res : Int
  errno : Int
  slots : Nat → epoll_event

/-- Answers of the environment during one call into `ext.c`.
`indeterminate` is the value found in an automatic `int` that is read before
being assigned. -/
structure Env where
  realloc_ok : Nat → Bool
  epoll_pwait : Int → Int → Int → sigset_t → PwaitResult
  epoll_ctl : Int → Int → Int → epoll_event → SysResult
  epoll_create1 : Int → SysResult
  indeterminate : Int

/-- The key every `scm_throw` of `ext.c` uses: `scm_from_utf8_symbol("epoll")`. -/
def epoll_key : SCM := SCM.sym "epoll"

/-! ## The functions of `ext.c` -/

/-- Source `scm_epoll_cripple` (ext.c 13-19).  The function has no `return`
statement; only its effect on `g_edge_triggering` is modelled. -/
def scm_epoll_cripple (w : World) (crippled : SCM) : World :=
  if crippled = SCM.bool_f then { w with g_edge_triggering := true }
  else { w with g_edge_triggering := false }

/-- The `while` loop of `scm_epoll_signals` (ext.c 24-28), by recursion on the
list.  The guard is the C expression `!scm_null_p(in_signals)`: the operator
`!` applied to the object that `scm_null_p` returns.  In the body `scm_car` of
an object that is not a pair raises a wrong-type error. -/
def signals_loop : SCM → sigset_t → sigset_t × Except Raised Unit
  | SCM.cons a d, set =>
    if c_not (scm_null_p (SCM.cons a d)) then
      match scm_to_int a with
      | Except.error e => (set, Except.error e)
      | Except.ok signal => signals_loop d (sigaddset set signal)
    else (set, Except.ok ())
  | x, set =>
    if c_not (scm_null_p x) then (set, Except.error (Raised.wrong_type_arg x))
    else (set, Except.ok ())

/-- Source `scm_epoll_signals` (ext.c 21-29).  The `assert` tests the object
returned by `scm_list_p` against zero; the function has no `return`
statement, so only its effect on `g_blocked_signals` is modelled. -/
def scm_epoll_signals (w : World) (in_signals : SCM) : World × Except Raised Unit :=
  if c_not (scm_list_p in_signals) then (w, Except.error Raised.abort)
  else
    let r := signals_loop in_signals sigemptyset
    ({ w with g_blocked_signals := r.1 }, r.2)

/-- The `for` loop of `scm_epoll_wait` (ext.c 57-61).  `block` is the size
in bytes of the block `events` points to (0 for `NULL`); the first number is
the count of iterations left (`res - i`), the second is `i`.  `events[i]`
occupies the bytes from `i * sizeof (struct epoll_event)` up to
`(i + 1) * sizeof (struct epoll_event)`; it holds what the kernel wrote there
when those bytes lie inside the block, and the access is outside the block
otherwise. -/
def wait_loop (block : Nat) (slots : Nat → epoll_event) : Nat → Nat → SCM → Except Raised SCM
  | 0, _, result => Except.ok result
  | n + 1, i, result =>
    if (i + 1) * sizeof_epoll_event ≤ block then
      let entry := SCM.cons (scm_from_uint32 (int_to_uint32 (slots i).data_fd))
                            (scm_from_uint32 (slots i).events)
      wait_loop block slots n (i + 1) (SCM.cons entry result)
    else Except.error Raised.buffer_overrun

/-- Source `scm_epoll_wait` (ext.c 32-63).  The block handed to the kernel
and read by the loop is the one `realloc` returned: `maxevents` bytes, or
`NULL` when the allocation failed. -/
def scm_epoll_wait (env : Env) (w : World) (in_epfd in_timeout in_maxevents : SCM) :
    World × Except Raised SCM :=
  match scm_to_int in_epfd with
  | Except.error e => (w, Except.error e)
  | Except.ok epfd =>
  match (if in_timeout = SCM.undefined then Except.ok 0 else scm_to_int in_timeout) with
  | Except.error e => (w, Except.error e)
  | Except.ok timeout =>
  match (if in_maxevents = SCM.undefined then Except.ok 32 else scm_to_int in_maxevents) with
  | Except.error e => (w, Except.error e)
  | Except.ok maxevents =>
    let size := int_to_size_t maxevents
    let w1 : World :=
      { w with events := if env.realloc_ok size then some size else none
               trace := w.trace ++ [Call.realloc w.events size] }
    let r := env.epoll_pwait epfd maxevents timeout w1.g_blocked_signals
    let w2 : World :=
      { w1 with trace := w1.trace ++
                  [Call.epoll_pwait epfd maxevents timeout w1.g_blocked_signals] }
    if r.res < 0 then
      (w2, Except.error (Raised.scm_throw epoll_key (scm_list_1 (scm_from_int r.errno))))
    else
      (w2, wait_loop (w2.events.getD 0) r.slots r.res.toNat 0 SCM.eol)

/-- The message thrown when the event mask is missing (ext.c 73). -/
def missing_events_message : SCM := SCM.str "Either specify EPOLLIN, EPOLLOUT, or both!"

/-- The line written when a mask comes with a deletion (ext.c 82). -/
def deletion_warning : String :=
  "WARNING: deletion ignores any event specifications. use EPOLL_CTL_MOD to remove some events."

/-- The `if`/`else` of `scm_epoll_ctl` that fills the static `event`
(ext.c 70-92). -/
def ctl_fill_event (w : World) (op : Int) (fd in_events : SCM) : World × Except Raised Unit :=
  if in_events = SCM.undefined then
    if op ≠ EPOLL_CTL_DEL then
      (w, Except.error (Raised.scm_throw epoll_key missing_events_message))
    else (w, Except.ok ())
  else
    if op = EPOLL_CTL_DEL then
      ({ w with trace := w.trace ++ [Call.scm_write_line deletion_warning] }, Except.ok ())
    else
      match scm_to_int fd with
      | Except.error e => (w, Except.error e)
      | Except.ok d =>
        match scm_to_uint32 in_events with
        | Except.error e => ({ w with event := { w.event with data_fd := d } }, Except.error e)
        | Except.ok m =>
          ({ w with event := { data_fd := d
                               events := if w.g_edge_triggering then m ||| EPOLLET else m } },
           Except.ok ())

/-- The `epoll_ctl` call of `scm_epoll_ctl` and what follows it
(ext.c 94-102).  The arguments of the call are converted left to right. -/
def ctl_issue (env : Env) (w1 : World) (op : Int) (epfd fd : SCM) : World × Except Raised SCM :=
  match scm_to_int epfd with
  | Except.error err => (w1, Except.error err)
  | Except.ok e =>
    match scm_to_int fd with
    | Except.error err => (w1, Except.error err)
    | Except.ok d =>
      let r := env.epoll_ctl e op d w1.event
      let w2 : World := { w1 with trace := w1.trace ++ [Call.epoll_ctl e op d w1.event] }
      if r.res < 0 then
        (w2, Except.error (Raised.scm_throw epoll_key (scm_list_1 (scm_from_int r.errno))))
      else (w2, Except.ok (scm_from_int r.res))

/-- Source `scm_epoll_ctl` (ext.c 65-103).  The `assert` tests the object
returned by `scm_number_p` against zero. -/
def scm_epoll_ctl (env : Env) (w : World) (epfd in_op fd in_events : SCM) :
    World × Except Raised SCM :=
  match scm_to_int in_op with
  | Except.error err => (w, Except.error err)
  | Except.ok op =>
    if c_not (scm_number_p in_events) then (w, Except.error Raised.abort)
    else
      match ctl_fill_event w op fd in_events with
      | (w1, Except.error err) => (w1, Except.error err)
      | (w1, Except.ok _) => ctl_issue env w1 op epfd fd

/-- Source `scm_epoll_create` (ext.c 105-118).  `flags` is assigned in two of
the three cases only; in the third the call reads it unassigned. -/
def scm_epoll_create (env : Env) (w : World) (cloexec_p : SCM) : World × Except Raised SCM :=
  let flags : Int :=
    if cloexec_p = SCM.undefined then 0
    else if cloexec_p = SCM.bool_t then EPOLL_CLOEXEC
    else env.indeterminate
  let r := env.epoll_create1 flags
  let w1 : World := { w with trace := w.trace ++ [Call.epoll_create1 flags] }
  if r.res < 0 then
    (w1, Except.error (Raised.scm_throw epoll_key (scm_list_1 (scm_from_int r.errno))))
  else (w1, Except.ok (scm_from_int r.res))

/-! ## Vocabulary of the statements -/

/-- An optional integer argument as the Scheme object the gsubr receives:
`SCM_UNDEFINED` when the caller left it out. -/
def opt_int : Option Int → SCM
  | none => SCM.undefined
  | some n => SCM.int n

/-- The value fits a C `int`. -/
def in_int_range (n : Int) : Prop := INT_MIN ≤ n ∧ n ≤ INT_MAX

/-- The Scheme list of the given objects. -/
def scm_list : List SCM → SCM
  | [] => SCM.eol
  | x :: xs => SCM.cons x (scm_list xs)

/-- The pair (descriptor, event mask) of a kernel slot. -/
def ready_pair (e : epoll_event) : SCM := SCM.cons (SCM.int e.data_fd) (SCM.int e.events)

/-- The `epoll_ctl` requests in a trace, in order. -/
def ctl_requests : List Call → List (Int × Int × Int × epoll_event)
  | [] => []
  | Call.epoll_ctl e op d ev :: cs => (e, op, d, ev) :: ctl_requests cs
  | _ :: cs => ctl_requests cs

/-- Number of `epoll_pwait` calls in a trace. -/
def pwait_count : List Call → Nat
  | [] => 0
  | Call.epoll_pwait _ _ _ _ :: cs => pwait_count cs + 1
  | _ :: cs => pwait_count cs

/-- The sizes asked of `realloc` in a trace, in order. -/
def realloc_sizes : List Call → List Nat
  | [] => []
  | Call.realloc _ size :: cs => size :: realloc_sizes cs
  | _ :: cs => realloc_sizes cs

/-- Bytes of the block the static `events` points to (0 for `NULL`). -/
def capacity (w : World) : Nat := w.events.getD 0

/-- An environment in which allocation succeeds, the wait times out with
nothing ready, and the other calls return 0. -/
def quiet_env : Env :=
  { realloc_ok := fun _ => true
    epoll_pwait := fun _ _ _ _ => ⟨0, 0, fun _ => ⟨0, 0⟩⟩
    epoll_ctl := fun _ _ _ _ => ⟨0, 0⟩
    epoll_create1 := fun _ => ⟨3, 0⟩
    indeterminate := EPOLL_CLOEXEC }

/-- What the kernel answers to the `epoll_pwait` call that `scm_epoll_wait`
makes for the given handle, optional timeout (default 0) and optional
maximum (default 32). -/
def wait_answer (env : Env) (w : World) (epfd : Int) (timeout maxevents : Option Int) :
    PwaitResult :=
  env.epoll_pwait epfd (maxevents.getD 32) (timeout.getD 0) w.g_blocked_signals

/-- An environment whose wait reports two ready slots: descriptor 7 readable
(`EPOLLIN` = 1), then descriptor 9 writable (`EPOLLOUT` = 4). -/
def busy_env : Env :=
  { quiet_env with
    epoll_pwait := fun _ _ _ _ =>
      ⟨2, 0, fun i => if i = 0 then ⟨1, 7⟩ else ⟨4, 9⟩⟩ }

/-- An environment whose wait reports four ready slots, descriptors 5, 6, 7
and 8, each readable (`EPOLLIN` = 1). -/
def crowded_env : Env :=
  { quiet_env with
    epoll_pwait := fun _ _ _ _ => ⟨4, 0, fun i => ⟨1, 5 + (i : Int)⟩⟩ }

/-- An environment whose wait fails with `EINTR` (4). -/
def interrupted_env : Env :=
  { quiet_env with epoll_pwait := fun _ _ _ _ => ⟨-1, 4, fun _ => ⟨0, 0⟩⟩ }

/-! ## Lemmas about the libguile layer -/

theorem fst_ite_same {α β : Type} (c : Prop) [Decidable c] (a : α) (x y : β) :
    (if c then (a, x) else (a, y)).1 = a := by
  split <;> rfl

theorem c_not_scm_from_bool_bits (b : Bool) : c_not (scm_from_bool_bits b) = false := by
  cases b <;> rfl

theorem c_not_scm_null_p (x : SCM) : c_not (scm_null_p x) = false :=
  c_not_scm_from_bool_bits _

theorem c_not_scm_list_p (x : SCM) : c_not (scm_list_p x) = false :=
  c_not_scm_from_bool_bits _

theorem c_not_scm_number_p (x : SCM) : c_not (scm_number_p x) = false :=
  c_not_scm_from_bool_bits _

theorem scm_to_int_of_range {n : Int} (h : in_int_range n) :
    scm_to_int (SCM.int n) = Except.ok n := by
  unfold in_int_range at h
  simp [scm_to_int, h]

theorem signals_loop_exits (x : SCM) (set : sigset_t) :
    signals_loop x set = (set, Except.ok ()) := by
  cases x <;> simp [signals_loop, c_not_scm_null_p]

/-! ## Triggering mode (`scm_epoll_cripple`) -/

/-- C6, as stated, fails: the claim has the mode edge-triggered after a call
with `#t` or with the argument left out, and non-edge after a call with `#f`.
On the source the mode is not edge-triggered after `#t`, not edge-triggered
after an omitted argument, and not non-edge after `#f`. -/
theorem cripple_true_is_not_edge :
    ¬ ((scm_epoll_cripple World.init SCM.bool_t).g_edge_triggering = true) ∧
    ¬ ((scm_epoll_cripple World.init SCM.undefined).g_edge_triggering = true) ∧
    ¬ ((scm_epoll_cripple (scm_epoll_cripple World.init SCM.bool_t) SCM.bool_f).g_edge_triggering
        = false) := by
  decide

/-- C6, amended: the argument of `scm_epoll_cripple` is a "crippled" flag.
After the call the mode is edge-triggered exactly when the argument is `#f`;
for `#t`, for an omitted argument and for every other object it is non-edge.
Nothing else in the world changes, and before any call the mode is
edge-triggered. -/
theorem cripple_sets_mode (w : World) (crippled : SCM) :
    ((scm_epoll_cripple w crippled).g_edge_triggering = true ↔ crippled = SCM.bool_f) ∧
    ((scm_epoll_cripple w crippled).g_edge_triggering = false ↔ crippled ≠ SCM.bool_f) ∧
    scm_epoll_cripple w crippled =
      { w with g_edge_triggering := decide (crippled = SCM.bool_f) } ∧
    World.init.g_edge_triggering = true := by
  unfold scm_epoll_cripple
  by_cases h : crippled = SCM.bool_f <;> simp [h, World.init]

/-! ## Instance creation (`scm_epoll_create`) -/

/-- C7, evaluated on the source: with `#f` (or any object other than `#t`)
passed for `cloexec_p`, the flags handed to `epoll_create1` are the
indeterminate contents of the unassigned local, not 0; in an environment
where that word is `EPOLL_CLOEXEC` the kernel is asked for close-on-exec.
With the argument omitted the flags are 0 and with `#t` they are
`EPOLL_CLOEXEC`. -/
theorem create_flags (env : Env) (w : World) :
    (scm_epoll_create env w SCM.bool_f).1.trace
      = w.trace ++ [Call.epoll_create1 env.indeterminate] ∧
    (scm_epoll_create quiet_env World.init SCM.bool_f).1.trace
      = [Call.epoll_create1 EPOLL_CLOEXEC] ∧
    (scm_epoll_create env w SCM.undefined).1.trace = w.trace ++ [Call.epoll_create1 0] ∧
    (scm_epoll_create env w SCM.bool_t).1.trace
      = w.trace ++ [Call.epoll_create1 EPOLL_CLOEXEC] := by
  refine ⟨?_, ?_, ?_, ?_⟩
  · simp [scm_epoll_create, fst_ite_same]
  · decide
  · simp [scm_epoll_create, fst_ite_same]
  · simp [scm_epoll_create, fst_ite_same]

/-! ## Blocked signals (`scm_epoll_signals`) -/

/-- C8, evaluated on the source: the loop guard `!scm_null_p(in_signals)`
negates a Scheme boolean object, whose machine word is never zero, so the
loop body never runs.  Whatever list is passed, the stored set ends empty and
no signal is a member; with the one-element list `(10)` signal 10 is not in
the stored set. -/
theorem signals_never_added (w : World) (in_signals : SCM) (signo : Int) :
    scm_epoll_signals w in_signals
      = ({ w with g_blocked_signals := sigemptyset }, Except.ok ()) ∧
    sigismember (scm_epoll_signals w in_signals).1.g_blocked_signals signo = false ∧
    sigismember (scm_epoll_signals World.init (scm_list [SCM.int 10])).1.g_blocked_signals 10
      = false := by
  have h : scm_epoll_signals w in_signals
      = ({ w with g_blocked_signals := sigemptyset }, Except.ok ()) := by
    simp [scm_epoll_signals, c_not_scm_list_p, signals_loop_exits]
  refine ⟨h, ?_, ?_⟩
  · rw [h]; simp [sigismember, sigemptyset]
  · decide

/-! ## Registration (`scm_epoll_ctl`) -/

theorem scm_to_uint32_of_lt {m : Nat} (h : m < 4294967296) :
    scm_to_uint32 (SCM.int m) = Except.ok m := by
  have h2 : (m : Int) ≤ UINT32_MAX := by unfold UINT32_MAX; omega
  simp [scm_to_uint32, h2]

theorem ctl_fill_event_del_supplied (w : World) (fd in_events : SCM)
    (h : in_events ≠ SCM.undefined) :
    ctl_fill_event w EPOLL_CTL_DEL fd in_events
      = ({ w with trace := w.trace ++ [Call.scm_write_line deletion_warning] }, Except.ok ()) := by
  simp [ctl_fill_event, h]

theorem ctl_fill_event_del_omitted (w : World) (fd : SCM) :
    ctl_fill_event w EPOLL_CTL_DEL fd SCM.undefined = (w, Except.ok ()) := by
  simp [ctl_fill_event]

theorem ctl_requests_append (xs ys : List Call) :
    ctl_requests (xs ++ ys) = ctl_requests xs ++ ctl_requests ys := by
  induction xs with
  | nil => rfl
  | cons c cs ih => cases c <;> simp [ctl_requests, ih]

theorem scm_to_int_error_ne {x : SCM} {err : Raised} (h : scm_to_int x = Except.error err) :
    err ≠ Raised.scm_throw epoll_key missing_events_message := by
  intro he
  subst he
  cases x <;> simp [scm_to_int] at h
  split at h <;> simp at h

theorem scm_to_uint32_error_ne {x : SCM} {err : Raised}
    (h : scm_to_uint32 x = Except.error err) :
    err ≠ Raised.scm_throw epoll_key missing_events_message := by
  intro he
  subst he
  cases x <;> simp [scm_to_uint32] at h
  split at h <;> simp at h

theorem ctl_issue_ne (env : Env) (w1 : World) (op : Int) (epfd fd : SCM) :
    (ctl_issue env w1 op epfd fd).2
      ≠ Except.error (Raised.scm_throw epoll_key missing_events_message) := by
  unfold ctl_issue
  cases he : scm_to_int epfd with
  | error err => simpa using scm_to_int_error_ne he
  | ok e =>
    cases hd : scm_to_int fd with
    | error err => simpa using scm_to_int_error_ne hd
    | ok d =>
      simp only
      split <;> simp [scm_list_1, missing_events_message]

theorem ctl_fill_event_supplied (w : World) (op : Int) (fd : SCM) {in_events : SCM}
    (h : in_events ≠ SCM.undefined) :
    (∃ w1, ctl_fill_event w op fd in_events = (w1, Except.ok ())) ∨
    (∃ w1 err, ctl_fill_event w op fd in_events = (w1, Except.error err) ∧
      err ≠ Raised.scm_throw epoll_key missing_events_message) := by
  unfold ctl_fill_event
  simp only [h, if_false]
  by_cases hd : op = EPOLL_CTL_DEL
  · simp [hd]
  · simp only [hd, if_false]
    cases hfd : scm_to_int fd with
    | error err => exact Or.inr ⟨w, err, rfl, scm_to_int_error_ne hfd⟩
    | ok d =>
      cases hm : scm_to_uint32 in_events with
      | error err => exact Or.inr ⟨_, err, rfl, scm_to_uint32_error_ne hm⟩
      | ok m => exact Or.inl ⟨_, rfl⟩

/-- With arguments of the right types (and a mask unless the operation is
`EPOLL_CTL_DEL`) the only outcomes are the kernel result or the throw that
carries `errno`. -/
theorem ctl_typed_outcome (env : Env) (w : World) (e op d : Int) (mask : Option Int)
    (he : in_int_range e) (hop : in_int_range op) (hd : in_int_range d)
    (hmask : ∀ x ∈ mask, 0 ≤ x ∧ x ≤ UINT32_MAX)
    (hreq : mask = none → op = EPOLL_CTL_DEL) :
    ∃ ev, (scm_epoll_ctl env w (SCM.int e) (SCM.int op) (SCM.int d) (opt_int mask)).2
      = if (env.epoll_ctl e op d ev).res < 0 then
          Except.error (Raised.scm_throw epoll_key
            (scm_list [SCM.int (env.epoll_ctl e op d ev).errno]))
        else Except.ok (SCM.int (env.epoll_ctl e op d ev).res) := by
  have issue : ∀ w1 : World, (ctl_issue env w1 op (SCM.int e) (SCM.int d)).2
      = if (env.epoll_ctl e op d w1.event).res < 0 then
          Except.error (Raised.scm_throw epoll_key
            (scm_list [SCM.int (env.epoll_ctl e op d w1.event).errno]))
        else Except.ok (SCM.int (env.epoll_ctl e op d w1.event).res) := by
    intro w1
    simp only [ctl_issue, scm_to_int_of_range he, scm_to_int_of_range hd]
    split <;> simp [scm_list, scm_list_1, scm_from_int]
  cases mask with
  | none =>
    have hdel := hreq rfl
    subst hdel
    refine ⟨w.event, ?_⟩
    simp only [scm_epoll_ctl, opt_int, scm_to_int_of_range hop, c_not_scm_number_p,
      ctl_fill_event_del_omitted]
    exact issue w
  | some x =>
    obtain ⟨hx0, hx1⟩ := hmask x rfl
    have hne : SCM.int x ≠ SCM.undefined := by simp
    by_cases hdel : op = EPOLL_CTL_DEL
    · subst hdel
      refine ⟨w.event, ?_⟩
      simp only [scm_epoll_ctl, opt_int, scm_to_int_of_range hop, c_not_scm_number_p,
        ctl_fill_event_del_supplied w (SCM.int d) (SCM.int x) hne]
      exact issue _
    · have hu : scm_to_uint32 (SCM.int x) = Except.ok x.toNat := by
        simp [scm_to_uint32, hx0, hx1]
      refine ⟨{ events := if w.g_edge_triggering then x.toNat ||| EPOLLET else x.toNat,
                data_fd := d }, ?_⟩
      simp only [scm_epoll_ctl, opt_int, scm_to_int_of_range hop, c_not_scm_number_p,
        ctl_fill_event, hne, if_false, hdel, scm_to_int_of_range hd, hu]
      exact issue _

/-- C1: for ADD or MODIFY with a 32-bit mask `m` supplied, a descriptor `d`
and an instance handle that fit `int`, `scm_epoll_ctl` issues exactly one
`epoll_ctl` request, whose event mask is `m ||| EPOLLET` when the mode is
edge-triggered and `m` when it is not, and whose event data holds `d`. -/
theorem ctl_registers_mask (env : Env) (w : World) (e op d : Int) (m : Nat)
    (he : in_int_range e) (hd : in_int_range d) (hm : m < 4294967296)
    (hop : op = EPOLL_CTL_ADD ∨ op = EPOLL_CTL_MOD) :
    (scm_epoll_ctl env w (SCM.int e) (SCM.int op) (SCM.int d) (SCM.int m)).1.trace
      = w.trace ++ [Call.epoll_ctl e op d
          { events := if w.g_edge_triggering then m ||| EPOLLET else m, data_fd := d }] ∧
    (w.g_edge_triggering = true →
      (scm_epoll_ctl env w (SCM.int e) (SCM.int op) (SCM.int d) (SCM.int m)).1.event
        = { events := m ||| EPOLLET, data_fd := d }) ∧
    (w.g_edge_triggering = false →
      (scm_epoll_ctl env w (SCM.int e) (SCM.int op) (SCM.int d) (SCM.int m)).1.event
        = { events := m, data_fd := d }) := by
  have hopr : in_int_range op := by
    rcases hop with h | h <;> subst h <;> unfold in_int_range <;> decide
  have hdel : op ≠ EPOLL_CTL_DEL := by
    rcases hop with h | h <;> subst h <;> decide
  have hfill : ctl_fill_event w op (SCM.int d) (SCM.int m)
      = ({ w with event := { events := if w.g_edge_triggering then m ||| EPOLLET else m,
                             data_fd := d } }, Except.ok ()) := by
    simp [ctl_fill_event, hdel, scm_to_int_of_range hd, scm_to_uint32_of_lt hm]
  have hrun : (scm_epoll_ctl env w (SCM.int e) (SCM.int op) (SCM.int d) (SCM.int m)).1
      = { w with event := { events := if w.g_edge_triggering then m ||| EPOLLET else m,
                            data_fd := d }
                 trace := w.trace ++ [Call.epoll_ctl e op d
                   { events := if w.g_edge_triggering then m ||| EPOLLET else m,
                     data_fd := d }] } := by
    simp [scm_epoll_ctl, ctl_issue, scm_to_int_of_range hopr, c_not_scm_number_p, hfill,
      scm_to_int_of_range he, scm_to_int_of_range hd, fst_ite_same]
  rw [hrun]
  refine ⟨rfl, ?_, ?_⟩
  · intro h; simp [h]
  · intro h; simp [h]

/-- Witness for C1: ADD of descriptor 5 with mask 1 (`EPOLLIN`) on instance 3
at program start. -/
theorem ctl_registers_mask_witness :
    (scm_epoll_ctl quiet_env World.init (SCM.int 3) (SCM.int EPOLL_CTL_ADD) (SCM.int 5)
        (SCM.int (1 : Nat))).1.trace
      = World.init.trace ++ [Call.epoll_ctl 3 EPOLL_CTL_ADD 5
          { events := if World.init.g_edge_triggering then 1 ||| EPOLLET else 1,
            data_fd := 5 }] :=
  (ctl_registers_mask quiet_env World.init 3 EPOLL_CTL_ADD 5 1
    (by unfold in_int_range; decide) (by unfold in_int_range; decide) (by decide)
    (Or.inl rfl)).1

/-- C2: `scm_epoll_ctl` raises the missing-mask error exactly when the mask
is omitted and the operation is not `EPOLL_CTL_DEL`.  For ADD and MODIFY with
the mask omitted it raises that error, returns no value and makes no call;
for DEL with the mask omitted, and for any operation with a mask supplied,
that error is not raised.  With arguments of the right types (handle,
operation and descriptor fitting `int`, the mask fitting `uint32_t` or omitted
for DEL) the call ends in the kernel result or in the throw carrying `errno`
and in nothing else. -/
theorem ctl_missing_mask_error (env : Env) (w : World) (epfd in_op fd in_events : SCM) :
    ((scm_epoll_ctl env w epfd in_op fd in_events).2
        = Except.error (Raised.scm_throw epoll_key missing_events_message)
      ↔ in_events = SCM.undefined ∧
          ∃ op, scm_to_int in_op = Except.ok op ∧ op ≠ EPOLL_CTL_DEL) ∧
    scm_epoll_ctl env w epfd (SCM.int EPOLL_CTL_ADD) fd SCM.undefined
      = (w, Except.error (Raised.scm_throw epoll_key missing_events_message)) ∧
    scm_epoll_ctl env w epfd (SCM.int EPOLL_CTL_MOD) fd SCM.undefined
      = (w, Except.error (Raised.scm_throw epoll_key missing_events_message)) ∧
    (scm_epoll_ctl env w epfd (SCM.int EPOLL_CTL_DEL) fd SCM.undefined).2
      ≠ Except.error (Raised.scm_throw epoll_key missing_events_message) ∧
    (in_events ≠ SCM.undefined →
      (scm_epoll_ctl env w epfd in_op fd in_events).2
        ≠ Except.error (Raised.scm_throw epoll_key missing_events_message)) ∧
    (∀ (e op d : Int) (mask : Option Int),
      in_int_range e → in_int_range op → in_int_range d →
      (∀ x ∈ mask, 0 ≤ x ∧ x ≤ UINT32_MAX) → (mask = none → op = EPOLL_CTL_DEL) →
      ∃ ev, (scm_epoll_ctl env w (SCM.int e) (SCM.int op) (SCM.int d) (opt_int mask)).2
        = if (env.epoll_ctl e op d ev).res < 0 then
            Except.error (Raised.scm_throw epoll_key
              (scm_list [SCM.int (env.epoll_ctl e op d ev).errno]))
          else Except.ok (SCM.int (env.epoll_ctl e op d ev).res)) := by
  have hadd : scm_to_int (SCM.int EPOLL_CTL_ADD) = Except.ok EPOLL_CTL_ADD := rfl
  have hmod : scm_to_int (SCM.int EPOLL_CTL_MOD) = Except.ok EPOLL_CTL_MOD := rfl
  have hdel : scm_to_int (SCM.int EPOLL_CTL_DEL) = Except.ok EPOLL_CTL_DEL := rfl
  have supplied : ∀ op : SCM, in_events ≠ SCM.undefined →
      (scm_epoll_ctl env w epfd op fd in_events).2
        ≠ Except.error (Raised.scm_throw epoll_key missing_events_message) := by
    intro op hne
    unfold scm_epoll_ctl
    cases hop : scm_to_int op with
    | error err => simpa using scm_to_int_error_ne hop
    | ok o =>
      simp only [c_not_scm_number_p]
      rcases ctl_fill_event_supplied w o fd hne with ⟨w1, h⟩ | ⟨w1, err, h, herr⟩
      · simp only [h]; exact ctl_issue_ne env w1 o epfd fd
      · simp only [h]; simpa using herr
  refine ⟨?_, ?_, ?_, ?_, supplied in_op, ctl_typed_outcome env w⟩
  · constructor
    · intro h
      by_cases hu : in_events = SCM.undefined
      · refine ⟨hu, ?_⟩
        subst hu
        unfold scm_epoll_ctl at h
        cases hop : scm_to_int in_op with
        | error err => rw [hop] at h; exact absurd (by simpa using h) (scm_to_int_error_ne hop)
        | ok o =>
          refine ⟨o, rfl, ?_⟩
          intro ho
          subst ho
          rw [hop] at h
          simp only [c_not_scm_number_p, ctl_fill_event_del_omitted] at h
          exact ctl_issue_ne env w _ epfd fd h
      · exact absurd h (supplied in_op hu)
    · rintro ⟨hu, o, hop, ho⟩
      subst hu
      simp [scm_epoll_ctl, hop, c_not_scm_number_p, ctl_fill_event, ho]
  · have hne : EPOLL_CTL_ADD ≠ EPOLL_CTL_DEL := by decide
    simp [scm_epoll_ctl, hadd, c_not_scm_number_p, ctl_fill_event, hne]
  · have hne : EPOLL_CTL_MOD ≠ EPOLL_CTL_DEL := by decide
    simp [scm_epoll_ctl, hmod, c_not_scm_number_p, ctl_fill_event, hne]
  · simp only [scm_epoll_ctl, hdel, c_not_scm_number_p, ctl_fill_event_del_omitted]
    exact ctl_issue_ne env w _ epfd fd

/-- Witness for C2: DEL of descriptor 5 with mask 1 supplied does not raise
the missing-mask error. -/
theorem ctl_missing_mask_error_witness :
    (scm_epoll_ctl quiet_env World.init (SCM.int 3) (SCM.int EPOLL_CTL_DEL) (SCM.int 5)
        (SCM.int 1)).2
      ≠ Except.error (Raised.scm_throw epoll_key missing_events_message) :=
  (ctl_missing_mask_error quiet_env World.init (SCM.int 3) (SCM.int EPOLL_CTL_DEL) (SCM.int 5)
    (SCM.int 1)).2.2.2.2.1 (by decide)

/-- C3: for `EPOLL_CTL_DEL`, a supplied mask (any object) changes nothing but
the warning line: the value returned or error raised, the `epoll_ctl`
requests issued (instance, operation, descriptor, event structure) and the
static event are those of the same call with the mask omitted, for every
handle, descriptor and prior world; and neither call raises the missing-mask
error. -/
theorem ctl_del_ignores_mask (env : Env) (w : World) (epfd fd in_events : SCM)
    (h : in_events ≠ SCM.undefined) :
    (scm_epoll_ctl env w epfd (SCM.int EPOLL_CTL_DEL) fd in_events).2
      = (scm_epoll_ctl env w epfd (SCM.int EPOLL_CTL_DEL) fd SCM.undefined).2 ∧
    ctl_requests (scm_epoll_ctl env w epfd (SCM.int EPOLL_CTL_DEL) fd in_events).1.trace
      = ctl_requests (scm_epoll_ctl env w epfd (SCM.int EPOLL_CTL_DEL) fd SCM.undefined).1.trace ∧
    (scm_epoll_ctl env w epfd (SCM.int EPOLL_CTL_DEL) fd in_events).1.event
      = (scm_epoll_ctl env w epfd (SCM.int EPOLL_CTL_DEL) fd SCM.undefined).1.event ∧
    (scm_epoll_ctl env w epfd (SCM.int EPOLL_CTL_DEL) fd in_events).2
      ≠ Except.error (Raised.scm_throw epoll_key missing_events_message) ∧
    (scm_epoll_ctl env w epfd (SCM.int EPOLL_CTL_DEL) fd SCM.undefined).2
      ≠ Except.error (Raised.scm_throw epoll_key missing_events_message) := by
  have hdel : scm_to_int (SCM.int EPOLL_CTL_DEL) = Except.ok EPOLL_CTL_DEL := rfl
  have ha : scm_epoll_ctl env w epfd (SCM.int EPOLL_CTL_DEL) fd in_events
      = ctl_issue env { w with trace := w.trace ++ [Call.scm_write_line deletion_warning] }
          EPOLL_CTL_DEL epfd fd := by
    simp only [scm_epoll_ctl, hdel, c_not_scm_number_p, ctl_fill_event_del_supplied w fd in_events h]
    rfl
  have hb : scm_epoll_ctl env w epfd (SCM.int EPOLL_CTL_DEL) fd SCM.undefined
      = ctl_issue env w EPOLL_CTL_DEL epfd fd := by
    simp only [scm_epoll_ctl, hdel, c_not_scm_number_p, ctl_fill_event_del_omitted]
    rfl
  rw [ha, hb]
  refine ⟨?_, ?_, ?_, ctl_issue_ne _ _ _ _ _, ctl_issue_ne _ _ _ _ _⟩
  · unfold ctl_issue
    cases scm_to_int epfd with
    | error err => rfl
    | ok e =>
      cases scm_to_int fd with
      | error err => rfl
      | ok d => simp only; split <;> rfl
  · unfold ctl_issue
    cases scm_to_int epfd with
    | error err => simp [ctl_requests_append, ctl_requests]
    | ok e =>
      cases scm_to_int fd with
      | error err => simp [ctl_requests_append, ctl_requests]
      | ok d => simp only; split <;> simp [ctl_requests_append, ctl_requests]
  · unfold ctl_issue
    cases scm_to_int epfd with
    | error err => rfl
    | ok e =>
      cases scm_to_int fd with
      | error err => rfl
      | ok d => simp only; split <;> rfl

/-- Witness for C3: DEL of descriptor 5 on instance 3 with mask 1 supplied
returns what the same call without a mask returns. -/
theorem ctl_del_ignores_mask_witness :
    (scm_epoll_ctl quiet_env World.init (SCM.int 3) (SCM.int EPOLL_CTL_DEL) (SCM.int 5)
        (SCM.int 1)).2
      = (scm_epoll_ctl quiet_env World.init (SCM.int 3) (SCM.int EPOLL_CTL_DEL) (SCM.int 5)
          SCM.undefined).2 :=
  (ctl_del_ignores_mask quiet_env World.init (SCM.int 3) (SCM.int 5) (SCM.int 1)
    (by decide)).1

/-! ## Waiting (`scm_epoll_wait`) -/

theorem pwait_count_append (xs ys : List Call) :
    pwait_count (xs ++ ys) = pwait_count xs + pwait_count ys := by
  induction xs with
  | nil => simp [pwait_count]
  | cons c cs ih => cases c <;> simp [pwait_count, ih]; omega

theorem int_to_size_t_of_nonneg {m : Int} (h0 : 0 ≤ m) (h1 : m ≤ INT_MAX) :
    int_to_size_t m = m.toNat := by
  unfold INT_MAX at h1
  unfold int_to_size_t
  rw [Int.emod_eq_of_lt h0 (by omega)]

theorem int_to_uint32_of_nonneg {n : Int} (h0 : 0 ≤ n) (h1 : n ≤ INT_MAX) :
    ((int_to_uint32 n : Nat) : Int) = n := by
  unfold INT_MAX at h1
  unfold int_to_uint32
  rw [Int.emod_eq_of_lt h0 (by omega)]
  exact Int.toNat_of_nonneg h0

/-- The call with arguments that convert: one `realloc`, one `epoll_pwait`,
then either the throw or the result list. -/
theorem scm_epoll_wait_eq (env : Env) (w : World) (epfd : Int) (timeout maxevents : Option Int)
    (he : in_int_range epfd) (ht : ∀ t ∈ timeout, in_int_range t)
    (hm : ∀ m ∈ maxevents, in_int_range m) :
    scm_epoll_wait env w (SCM.int epfd) (opt_int timeout) (opt_int maxevents)
      = ({ w with
            events := if env.realloc_ok (int_to_size_t (maxevents.getD 32))
                      then some (int_to_size_t (maxevents.getD 32)) else none
            trace := w.trace ++
              [Call.realloc w.events (int_to_size_t (maxevents.getD 32)),
               Call.epoll_pwait epfd (maxevents.getD 32) (timeout.getD 0) w.g_blocked_signals] },
         if (wait_answer env w epfd timeout maxevents).res < 0 then
           Except.error (Raised.scm_throw epoll_key
             (scm_list [SCM.int (wait_answer env w epfd timeout maxevents).errno]))
         else
           wait_loop
             ((if env.realloc_ok (int_to_size_t (maxevents.getD 32))
               then some (int_to_size_t (maxevents.getD 32)) else none).getD 0)
             (wait_answer env w epfd timeout maxevents).slots
             (wait_answer env w epfd timeout maxevents).res.toNat 0 SCM.eol) := by
  have h1 : scm_to_int (SCM.int epfd) = Except.ok epfd := scm_to_int_of_range he
  have h2 : (if opt_int timeout = SCM.undefined then Except.ok 0
      else scm_to_int (opt_int timeout)) = Except.ok (timeout.getD 0) := by
    cases timeout with
    | none => simp [opt_int]
    | some t => simp [opt_int, scm_to_int_of_range (ht t rfl)]
  have h3 : (if opt_int maxevents = SCM.undefined then Except.ok 32
      else scm_to_int (opt_int maxevents)) = Except.ok (maxevents.getD 32) := by
    cases maxevents with
    | none => simp [opt_int]
    | some m => simp [opt_int, scm_to_int_of_range (hm m rfl)]
  unfold scm_epoll_wait
  rw [h1]
  simp only [h2, h3, wait_answer]
  split <;> simp [scm_list, scm_list_1, scm_from_int]

theorem wait_loop_eq (block : Nat) (slots : Nat → epoll_event) (n i : Nat) (acc : List SCM)
    (hfit : (i + n) * sizeof_epoll_event ≤ block) :
    wait_loop block slots n i (scm_list acc)
      = Except.ok (scm_list ((List.range' i n).reverse.map
          (fun j => SCM.cons (scm_from_uint32 (int_to_uint32 (slots j).data_fd))
                             (scm_from_uint32 (slots j).events)) ++ acc)) := by
  induction n generalizing i acc with
  | zero => simp [wait_loop]
  | succ n ih =>
    have hcons : ∀ x : SCM, SCM.cons x (scm_list acc) = scm_list (x :: acc) := fun _ => rfl
    have hin : (i + 1) * sizeof_epoll_event ≤ block := by
      unfold sizeof_epoll_event at hfit ⊢
      omega
    have hrest : (i + 1 + n) * sizeof_epoll_event ≤ block := by
      unfold sizeof_epoll_event at hfit ⊢
      omega
    simp only [wait_loop, hin, if_true, hcons, ih (i + 1) _ hrest, List.range'_succ,
      List.reverse_cons, List.map_append, List.map_cons, List.map_nil, List.append_assoc,
      List.singleton_append]

theorem wait_loop_overrun (block : Nat) (slots : Nat → epoll_event) (n i : Nat) (acc : SCM)
    (hn : 0 < n) (hover : block < (i + n) * sizeof_epoll_event) :
    wait_loop block slots n i acc = Except.error Raised.buffer_overrun := by
  induction n generalizing i acc with
  | zero => omega
  | succ n ih =>
    by_cases hin : (i + 1) * sizeof_epoll_event ≤ block
    · have hpos : 0 < n := by
        rcases Nat.eq_zero_or_pos n with h | h
        · subst h
          unfold sizeof_epoll_event at hin hover
          omega
        · exact h
      have hrest : block < (i + 1 + n) * sizeof_epoll_event := by
        unfold sizeof_epoll_event at hover ⊢
        omega
      simp only [wait_loop, hin, if_true]
      exact ih (i + 1) _ hpos hrest
    · simp only [wait_loop, hin, if_false]

theorem reversed_range_get (n k : Nat) (f : Nat → SCM) (hk : k < n) :
    ((List.range n).reverse.map f)[k]? = some (f (n - 1 - k)) := by
  rw [List.getElem?_map, List.getElem?_reverse (by simpa using hk)]
  simp only [List.length_range]
  rw [List.getElem?_range (by omega)]
  rfl

/-- Inside the block the loop does what it is written to do: when the
allocation succeeds, the kernel returns `n ≥ 0` with
`n * sizeof (struct epoll_event)` at most the `maxevents` bytes of the block,
and the slots carry descriptors, the result is the list of the `n` pairs in
reverse kernel order. -/
theorem wait_in_block_reversed (env : Env) (w : World) (epfd : Int)
    (timeout maxevents : Option Int)
    (he : in_int_range epfd) (ht : ∀ t ∈ timeout, in_int_range t)
    (hm : ∀ m ∈ maxevents, in_int_range m)
    (hok : env.realloc_ok (int_to_size_t (maxevents.getD 32)) = true)
    (hres : 0 ≤ (wait_answer env w epfd timeout maxevents).res)
    (hfit : (wait_answer env w epfd timeout maxevents).res.toNat * sizeof_epoll_event
      ≤ int_to_size_t (maxevents.getD 32))
    (hfd : ∀ i, i < (wait_answer env w epfd timeout maxevents).res.toNat →
      0 ≤ ((wait_answer env w epfd timeout maxevents).slots i).data_fd ∧
      ((wait_answer env w epfd timeout maxevents).slots i).data_fd ≤ INT_MAX) :
    (scm_epoll_wait env w (SCM.int epfd) (opt_int timeout) (opt_int maxevents)).2
      = Except.ok (scm_list
          ((List.range (wait_answer env w epfd timeout maxevents).res.toNat).reverse.map
            (fun i => ready_pair ((wait_answer env w epfd timeout maxevents).slots i)))) := by
  have hnot : ¬ (wait_answer env w epfd timeout maxevents).res < 0 := not_lt.mpr hres
  rw [scm_epoll_wait_eq env w epfd timeout maxevents he ht hm]
  simp only [hnot, if_false, hok, if_true, Option.getD_some]
  have h0 : SCM.eol = scm_list [] := rfl
  rw [h0, wait_loop_eq _ _ _ _ _ (by simpa using hfit), List.append_nil,
    ← List.range_eq_range']
  congr 2
  apply List.map_congr_left
  intro i hi
  have hi2 : i < (wait_answer env w epfd timeout maxevents).res.toNat := by
    simpa using hi
  obtain ⟨hlo, hhi⟩ := hfd i hi2
  simp [ready_pair, scm_from_uint32, int_to_uint32_of_nonneg hlo hhi]

/-- Two ready slots fit the 32 bytes of the default call: the kernel reports
descriptor 7 readable, then descriptor 9 writable, and the result lists
descriptor 9 first. -/
theorem wait_two_slots_reversed :
    (scm_epoll_wait busy_env World.init (SCM.int 3) (opt_int (some 1000)) (opt_int none)).2
      = Except.ok (scm_list [ready_pair ⟨4, 9⟩, ready_pair ⟨1, 7⟩]) :=
  wait_in_block_reversed busy_env World.init 3 (some 1000) none
    (by unfold in_int_range; decide)
    (by intro t ht; cases ht; unfold in_int_range; decide)
    (by intro m hm; cases hm)
    (by decide)
    (by decide)
    (by decide)
    (by
      intro i hi
      have hi2 : i < 2 := hi
      interval_cases i <;> decide)

/-- Whenever the kernel reports `n > 0` slots and
`n * sizeof (struct epoll_event)` exceeds the size of the block, the loop
reads outside the block, whatever the world before the call. -/
theorem wait_reads_outside_block (env : Env) (w : World) (epfd : Int)
    (timeout maxevents : Option Int)
    (he : in_int_range epfd) (ht : ∀ t ∈ timeout, in_int_range t)
    (hm : ∀ m ∈ maxevents, in_int_range m)
    (hres : 0 < (wait_answer env w epfd timeout maxevents).res)
    (hover :
      capacity (scm_epoll_wait env w (SCM.int epfd) (opt_int timeout) (opt_int maxevents)).1
        < (wait_answer env w epfd timeout maxevents).res.toNat * sizeof_epoll_event) :
    (scm_epoll_wait env w (SCM.int epfd) (opt_int timeout) (opt_int maxevents)).2
      = Except.error Raised.buffer_overrun := by
  rw [scm_epoll_wait_eq env w epfd timeout maxevents he ht hm] at hover ⊢
  have hnot : ¬ (wait_answer env w epfd timeout maxevents).res < 0 := by omega
  simp only [hnot, if_false]
  apply wait_loop_overrun
  · omega
  · simpa [capacity] using hover

/-- C4, evaluated on the source: with the default maximum the block is 32
bytes (`realloc(events, maxevents)`, the defect of C9), and the kernel may
fill up to 32 slots of 12 bytes.  When it reports four ready slots it has
written 48 bytes, and the loop reads `events[2]` and `events[3]` outside the
block: the call does not return the list of four pairs in reverse kernel
order, whatever the world before the call. -/
theorem wait_overruns_block (w : World) :
    (scm_epoll_wait crowded_env w (SCM.int 3) SCM.undefined SCM.undefined).2
      = Except.error Raised.buffer_overrun ∧
    (scm_epoll_wait crowded_env w (SCM.int 3) SCM.undefined SCM.undefined).2
      ≠ Except.ok (scm_list ((List.range 4).reverse.map
          (fun i => ready_pair ((wait_answer crowded_env w 3 none none).slots i)))) ∧
    (wait_answer crowded_env w 3 none none).res = 4 ∧
    capacity (scm_epoll_wait crowded_env w (SCM.int 3) SCM.undefined SCM.undefined).1 = 32 ∧
    ¬ (4 * sizeof_epoll_event ≤ 32) := by
  have hrun : (scm_epoll_wait crowded_env w (SCM.int 3) SCM.undefined SCM.undefined).2
      = Except.error Raised.buffer_overrun := rfl
  refine ⟨hrun, ?_, rfl, rfl, by decide⟩
  rw [hrun]
  exact fun h => Except.noConfusion h

/-- C5: with arguments that convert, `scm_epoll_wait` calls `epoll_pwait`
exactly once (after one `realloc`), whatever the kernel answers; and when the
kernel answers with a negative result, the call raises
`scm_throw 'epoll (errno)` and returns no list. -/
theorem wait_failure_raises (env : Env) (w : World) (epfd : Int)
    (timeout maxevents : Option Int)
    (he : in_int_range epfd) (ht : ∀ t ∈ timeout, in_int_range t)
    (hm : ∀ m ∈ maxevents, in_int_range m) :
    (scm_epoll_wait env w (SCM.int epfd) (opt_int timeout) (opt_int maxevents)).1.trace
      = w.trace ++
          [Call.realloc w.events (int_to_size_t (maxevents.getD 32)),
           Call.epoll_pwait epfd (maxevents.getD 32) (timeout.getD 0) w.g_blocked_signals] ∧
    pwait_count
        (scm_epoll_wait env w (SCM.int epfd) (opt_int timeout) (opt_int maxevents)).1.trace
      = pwait_count w.trace + 1 ∧
    ((wait_answer env w epfd timeout maxevents).res < 0 →
      (scm_epoll_wait env w (SCM.int epfd) (opt_int timeout) (opt_int maxevents)).2
        = Except.error (Raised.scm_throw epoll_key
            (scm_list [SCM.int (wait_answer env w epfd timeout maxevents).errno]))) := by
  rw [scm_epoll_wait_eq env w epfd timeout maxevents he ht hm]
  refine ⟨rfl, ?_, ?_⟩
  · simp only [pwait_count_append]
    rfl
  · intro h
    simp only [h, if_true]

/-- Witness for C5: a wait interrupted by a signal (`EINTR` = 4) raises
`scm_throw 'epoll (4)`. -/
theorem wait_failure_raises_witness :
    (scm_epoll_wait interrupted_env World.init (SCM.int 3) (opt_int none) (opt_int none)).2
      = Except.error (Raised.scm_throw epoll_key (scm_list [SCM.int 4])) :=
  (wait_failure_raises interrupted_env World.init 3 none none
    (by unfold in_int_range; decide)
    (by intro t ht; cases ht)
    (by intro m hm; cases hm)).2.2 (by decide)

theorem realloc_sizes_append (xs ys : List Call) :
    realloc_sizes (xs ++ ys) = realloc_sizes xs ++ realloc_sizes ys := by
  induction xs with
  | nil => rfl
  | cons c cs ih => cases c <;> simp [realloc_sizes, ih]

/-- The size asked of `realloc` is `maxevents` itself, a count of bytes: for
every `0 < maxevents ≤ INT_MAX` the request is smaller than `maxevents`
event slots. -/
theorem wait_realloc_size (env : Env) (w : World) (epfd m : Int) (timeout : Option Int)
    (he : in_int_range epfd) (ht : ∀ t ∈ timeout, in_int_range t)
    (h0 : 0 < m) (h1 : m ≤ INT_MAX) :
    realloc_sizes (scm_epoll_wait env w (SCM.int epfd) (opt_int timeout) (SCM.int m)).1.trace
      = realloc_sizes w.trace ++ [m.toNat] ∧
    m.toNat < m.toNat * sizeof_epoll_event := by
  have hm : ∀ x ∈ some m, in_int_range x := by
    intro x hx
    cases hx
    exact ⟨by unfold INT_MIN; omega, h1⟩
  have h : scm_epoll_wait env w (SCM.int epfd) (opt_int timeout) (SCM.int m) = _ :=
    scm_epoll_wait_eq env w epfd timeout (some m) he ht hm
  rw [h]
  constructor
  · simp [realloc_sizes_append, realloc_sizes, int_to_size_t_of_nonneg (le_of_lt h0) h1]
  · unfold sizeof_epoll_event
    omega

/-- C9, evaluated on the source: `realloc(events, maxevents)` asks for
`maxevents` bytes, not `maxevents` slots.  With the default maximum the call
asks the allocator for 32 bytes and then tells the kernel it may fill 32
slots, which take `32 * sizeof (struct epoll_event)` = 384 bytes. -/
theorem wait_default_realloc_too_small (env : Env) (w : World) :
    (scm_epoll_wait env w (SCM.int 3) SCM.undefined SCM.undefined).1.trace
      = w.trace ++ [Call.realloc w.events 32,
                    Call.epoll_pwait 3 32 0 w.g_blocked_signals] ∧
    realloc_sizes (scm_epoll_wait env w (SCM.int 3) SCM.undefined SCM.undefined).1.trace
      = realloc_sizes w.trace ++ [32] ∧
    ¬ (32 * sizeof_epoll_event ≤ 32) := by
  have h : scm_epoll_wait env w (SCM.int 3) SCM.undefined SCM.undefined = _ :=
    scm_epoll_wait_eq env w 3 none none (by unfold in_int_range; decide)
      (by intro t ht; cases ht) (by intro m hm; cases hm)
  rw [h]
  have hs : int_to_size_t 32 = 32 := by decide
  refine ⟨?_, ?_, by decide⟩
  · simp [hs]
  · simp [realloc_sizes_append, realloc_sizes, hs]

/-- C10, as stated, fails: after a wait with maximum 64 and then a wait with
maximum 32 the capacity of the buffer has gone down. -/
theorem buffer_shrinks :
    ¬ (capacity (scm_epoll_wait quiet_env World.init (SCM.int 3) SCM.undefined (SCM.int 64)).1
        ≤ capacity (scm_epoll_wait quiet_env
            (scm_epoll_wait quiet_env World.init (SCM.int 3) SCM.undefined (SCM.int 64)).1
            (SCM.int 3) SCM.undefined (SCM.int 32)).1) := by
  decide

/-- C10, amended: every wait hands the buffer to `realloc` with the size of
that call.  The capacity after a call does not depend on the world before it,
and when allocation succeeds it follows `maxevents` up and down: a call with
a smaller maximum than the call before leaves a smaller capacity, a call with
a larger one a larger capacity. -/
theorem wait_resizes_buffer (env1 env2 : Env) (w w' : World) (epfd m1 m2 : Int)
    (timeout : Option Int)
    (he : in_int_range epfd) (ht : ∀ t ∈ timeout, in_int_range t)
    (h0 : 0 ≤ m2) (h12 : m2 < m1) (h1 : m1 ≤ INT_MAX)
    (hok1 : ∀ n, env1.realloc_ok n = true) (hok2 : ∀ n, env2.realloc_ok n = true) :
    (scm_epoll_wait env1 w (SCM.int epfd) (opt_int timeout) (SCM.int m1)).1.events
      = (scm_epoll_wait env1 w' (SCM.int epfd) (opt_int timeout) (SCM.int m1)).1.events ∧
    capacity (scm_epoll_wait env2
        (scm_epoll_wait env1 w (SCM.int epfd) (opt_int timeout) (SCM.int m1)).1
        (SCM.int epfd) (opt_int timeout) (SCM.int m2)).1
      < capacity (scm_epoll_wait env1 w (SCM.int epfd) (opt_int timeout) (SCM.int m1)).1 ∧
    capacity (scm_epoll_wait env2 w (SCM.int epfd) (opt_int timeout) (SCM.int m2)).1
      < capacity (scm_epoll_wait env1
          (scm_epoll_wait env2 w (SCM.int epfd) (opt_int timeout) (SCM.int m2)).1
          (SCM.int epfd) (opt_int timeout) (SCM.int m1)).1 := by
  have hm1 : ∀ x ∈ some m1, in_int_range x := by
    intro x hx
    cases hx
    exact ⟨by unfold INT_MIN; omega, h1⟩
  have hm2 : ∀ x ∈ some m2, in_int_range x := by
    intro x hx
    cases hx
    exact ⟨by unfold INT_MIN; omega, by omega⟩
  have e1 : ∀ v, scm_epoll_wait env1 v (SCM.int epfd) (opt_int timeout) (SCM.int m1) = _ :=
    fun v => scm_epoll_wait_eq env1 v epfd timeout (some m1) he ht hm1
  have e2 : ∀ v, scm_epoll_wait env2 v (SCM.int epfd) (opt_int timeout) (SCM.int m2) = _ :=
    fun v => scm_epoll_wait_eq env2 v epfd timeout (some m2) he ht hm2
  have s1 : int_to_size_t m1 = m1.toNat := int_to_size_t_of_nonneg (by omega) h1
  have s2 : int_to_size_t m2 = m2.toNat := int_to_size_t_of_nonneg h0 (by omega)
  have hlt : m2.toNat < m1.toNat := by omega
  simp only [e1, e2, capacity, Option.getD_some, hok1, hok2, if_true, s1, s2]
  exact ⟨trivial, hlt, hlt⟩

/-- Witness for C10 (amended): maximum 64, then maximum 32, at program start
with an allocator that succeeds. -/
theorem wait_resizes_buffer_witness :
    capacity (scm_epoll_wait quiet_env
        (scm_epoll_wait quiet_env World.init (SCM.int 3) (opt_int none) (SCM.int 64)).1
        (SCM.int 3) (opt_int none) (SCM.int 32)).1
      < capacity (scm_epoll_wait quiet_env World.init (SCM.int 3) (opt_int none)
          (SCM.int 64)).1 :=
  (wait_resizes_buffer quiet_env quiet_env World.init World.init 3 64 32 none
    (by unfold in_int_range; decide)
    (by intro t ht; cases ht)
    (by decide) (by decide) (by decide)
    (fun _ => rfl) (fun _ => rfl)).2.1

end GuileEpoll
